import Mathlib

/-!
Shallow embedding of the parking-management application (`models.py`, `app.py`).

Modelling conventions:
* Wall-clock timestamps (`datetime.utcnow()` values) are rationals counting seconds
  since an arbitrary epoch; Python `timedelta.total_seconds()` is then plain
  subtraction.
* Python floats (prices, costs) are modelled as exact rationals; Python's
  `round(x, 2)` (round-half-to-even) is `round2` below.
* The SQLAlchemy tables are lists kept in primary-key order (SQLite assigns
  ascending integer primary keys, and an unordered `.first()` query returns rows
  in that order); `query.filter_by(...).first()` is `List.find?`,
  `query.filter_by(...).count()` is `List.countP`.
* `db.session.commit` either applies all buffered writes or (in the `except`
  branches) rolls every one of them back, so an operation is a pure function
  from state to (outcome, state); the explicit `storeOk` flag on lot creation
  models the `try/except/rollback` around the multi-row lot+spots write.
* `created_at` / `registration_timestamp` bookkeeping columns and the password
  machinery are omitted: no claim mentions them and no operation reads them.
-/

/-- Status column of `ParkingSpot` (`models.py`): the one-character string
`'A'` (Available) or `'O'` (Occupied). -/
inductive SpotStatus where
  | A : SpotStatus
  | O : SpotStatus
deriving DecidableEq

/-- Row of the `parking_lot` table (`models.py`, class `ParkingLot`). -/
structure ParkingLot where
  id : Nat
  prime_location_name : String
  price : ℚ
  address : String
  pin_code : String
  maximum_number_of_spots : ℤ
deriving DecidableEq

/-- Row of the `parking_spot` table (`models.py`, class `ParkingSpot`).
`ordinal` is the loop counter `spot_number` of `create_parking_lot`
(`app.py` line 206), the integer that is zero-padded into the
`spot_number` string; it is kept alongside the formatted string so that
ordinal-ordering statements can be made. -/
structure ParkingSpot where
  id : Nat
  lot_id : Nat
  ordinal : Nat
  spot_number : String
  status : SpotStatus
deriving DecidableEq

/-- Row of the `parking_reservation` table (`models.py`, class
`ParkingReservation`). A `none` `leaving_timestamp` means "still parked". -/
structure ParkingReservation where
  id : Nat
  spot_id : Nat
  user_id : Nat
  parking_timestamp : ℚ
  leaving_timestamp : Option ℚ
  parking_cost_per_unit_time : ℚ
  total_cost : Option ℚ
deriving DecidableEq

/-- The persistent store: the three tables the core operates on, plus the
next primary key SQLite will assign in each table. -/
structure AppState where
  lots : List ParkingLot
  spots : List ParkingSpot
  reservations : List ParkingReservation
  nextLotId : Nat
  nextSpotId : Nat
  nextResId : Nat
deriving DecidableEq

/-- The freshly created database: empty tables, primary keys starting at 1. -/
def initialState : AppState :=
  { lots := [], spots := [], reservations := [],
    nextLotId := 1, nextSpotId := 1, nextResId := 1 }

/-- Python's `round` to an integer: round half to even (banker's rounding). -/
def pyRound (q : ℚ) : ℤ :=
  if q - ⌊q⌋ < 1/2 then ⌊q⌋
  else if q - ⌊q⌋ > 1/2 then ⌊q⌋ + 1
  else if ⌊q⌋ % 2 = 0 then ⌊q⌋ else ⌊q⌋ + 1

/-- Python's `round(x, 2)` on the exact-rational model of floats. -/
def round2 (q : ℚ) : ℚ := (pyRound (q * 100) : ℚ) / 100

/-- Method `ParkingReservation.duration_hours` (`models.py` lines 95-105):
elapsed seconds divided by 3600; uses the current clock while still parked. -/
def duration_hours (r : ParkingReservation) (now : ℚ) : ℚ :=
  match r.leaving_timestamp with
  | some l => (l - r.parking_timestamp) / 3600
  | none => (now - r.parking_timestamp) / 3600

/-- Method `ParkingReservation.calculate_total_cost` (`models.py` lines
107-112): `round(hours * rate, 2)` once departed, 0 before. -/
def calculate_total_cost (r : ParkingReservation) (now : ℚ) : ℚ :=
  match r.leaving_timestamp with
  | some _ => round2 (duration_hours r now * r.parking_cost_per_unit_time)
  | none => 0

/-- Python's `str.strip()`: drop leading and trailing whitespace.
Implemented structurally over the character list so that concrete stores
compute inside the kernel (Lean's `String.trim` is well-founded recursion
and does not reduce); on the ASCII form data involved it agrees with
Python's behaviour. -/
def pyStrip (s : String) : String :=
  String.mk (((s.data.dropWhile Char.isWhitespace).reverse.dropWhile
    Char.isWhitespace).reverse)

/-- Python's `str.upper()`, structurally over the character list (same
kernel-computability reason; identical on ASCII lot names). -/
def pyUpper (s : String) : String := String.mk (s.data.map Char.toUpper)

/-- Zero-padding of Python's `f"{n:03d}"` for a nonnegative argument. -/
def pad3 (n : Nat) : String :=
  let s := toString n
  if s.length ≥ 3 then s else String.mk (List.replicate (3 - s.length) '0') ++ s

/-- The spot identifier `f"{name[:3].upper()}-{k:03d}"` built in
`create_parking_lot` (`app.py` line 209). -/
def spotLabel (name : String) (k : Nat) : String :=
  pyUpper (name.take 3) ++ "-" ++ pad3 k

/-- `ParkingLot.query.get(lotId)`: lookup by primary key. -/
def findLot (s : AppState) (lotId : Nat) : Option ParkingLot :=
  s.lots.find? (fun L => decide (L.id = lotId))

/-- `ParkingReservation.query.filter_by(user_id=uid, leaving_timestamp=None).first()`:
the user's open reservation, if any (`app.py` lines 334-337, 387-390). -/
def userOpenRes (s : AppState) (uid : Nat) : Option ParkingReservation :=
  s.reservations.find? (fun r => decide (r.user_id = uid ∧ r.leaving_timestamp = none))

/-- `ParkingSpot.query.filter_by(lot_id=lotId, status='A').first()`: the first
available spot of the lot in primary-key order (`app.py` line 350). -/
def firstAvailableSpot (s : AppState) (lotId : Nat) : Option ParkingSpot :=
  s.spots.find? (fun sp => decide (sp.lot_id = lotId ∧ sp.status = SpotStatus.A))

/-- Number of open reservations that reference a given spot. -/
def openResCount (s : AppState) (spotId : Nat) : Nat :=
  s.reservations.countP (fun r => decide (r.spot_id = spotId ∧ r.leaving_timestamp = none))

/-- Number of open reservations held by a given user. -/
def userOpenCount (s : AppState) (uid : Nat) : Nat :=
  s.reservations.countP (fun r => decide (r.user_id = uid ∧ r.leaving_timestamp = none))

/-- `ParkingSpot.query.filter_by(lot_id=lotId, status='O').count()`
(`app.py` line 262). -/
def occupiedCount (s : AppState) (lotId : Nat) : Nat :=
  s.spots.countP (fun sp => decide (sp.lot_id = lotId ∧ sp.status = SpotStatus.O))

/-- Status of the spot with the given primary key, if it exists. -/
def spotStatusById (s : AppState) (spotId : Nat) : Option SpotStatus :=
  (s.spots.find? (fun sp => decide (sp.id = spotId))).map (fun sp => sp.status)

/-- The `create_lot` form after `request.form.get(...)`. The numeric fields
are `none` when the submitted string is missing, blank or fails
`float`/`int` parsing (each of those paths yields the same validation flash
and leaves the store untouched, `app.py` lines 178-190). -/
structure LotForm where
  prime_location_name : String
  price : Option ℚ
  address : String
  pin_code : String
  maximum_number_of_spots : Option ℤ
deriving DecidableEq

/-- The `edit_lot` form: `edit_parking_lot` reads no capacity field and
defaults a missing price to `0` via `request.form.get('price', 0)`. -/
structure EditLotForm where
  prime_location_name : String
  price : Option ℚ
  address : String
  pin_code : String
deriving DecidableEq

/-- Outcome of `create_parking_lot`. -/
inductive CreateLotOutcome where
  | validationError : CreateLotOutcome
  | persistenceFailed : CreateLotOutcome
  | created : Nat → CreateLotOutcome
deriving DecidableEq

/-- One spot row as inserted by the loop of `create_parking_lot`
(`app.py` lines 206-212), for zero-based loop index `i` (the source loop
variable runs over ordinals `1..capacity`, here `i + 1`): ascending
primary key from `firstId`, status Available, label from the lot name. -/
def mkSpot (name : String) (lotId firstId i : Nat) : ParkingSpot :=
  { id := firstId + i, lot_id := lotId, ordinal := i + 1,
    spot_number := spotLabel name (i + 1), status := SpotStatus.A }

/-- The full block of spot rows inserted by that loop for ordinals 1..n. -/
def mkSpots (name : String) (lotId firstId n : Nat) : List ParkingSpot :=
  (List.range n).map (mkSpot name lotId firstId)

/-- The committed effect of a successful `create_parking_lot`: the new lot
row plus its block of spot rows, with both primary-key counters advanced. -/
def createdState (s : AppState) (name : String) (price : ℚ)
    (address pin : String) (maxSpots : ℤ) : AppState :=
  { s with
    lots := s.lots ++
      [{ id := s.nextLotId, prime_location_name := name, price := price,
         address := address, pin_code := pin,
         maximum_number_of_spots := maxSpots }],
    spots := s.spots ++ mkSpots name s.nextLotId s.nextSpotId maxSpots.toNat,
    nextLotId := s.nextLotId + 1,
    nextSpotId := s.nextSpotId + maxSpots.toNat }

/-- The lot row a successful `create_parking_lot` persists for a given
form (fields stripped, numerics parsed). -/
def createdLotRow (s : AppState) (f : LotForm) (price : ℚ)
    (maxSpots : ℤ) : ParkingLot :=
  { id := s.nextLotId, prime_location_name := pyStrip f.prime_location_name,
    price := price, address := pyStrip f.address,
    pin_code := pyStrip f.pin_code, maximum_number_of_spots := maxSpots }

/-- Route `create_parking_lot` (`app.py` lines 160-222), POST branch:
validate the form, then atomically insert the lot row and its
`maximum_number_of_spots` spot rows. `storeOk = false` takes the
`except` branch: `db.session.rollback()` leaves the store unchanged. -/
def create_parking_lot (s : AppState) (f : LotForm) (storeOk : Bool) :
    CreateLotOutcome × AppState :=
  let name := pyStrip f.prime_location_name
  let address := pyStrip f.address
  let pin := pyStrip f.pin_code
  match f.price, f.maximum_number_of_spots with
  | some price, some maxSpots =>
    if name = "" ∨ address = "" ∨ pin = "" then (CreateLotOutcome.validationError, s)
    else if price ≤ 0 ∨ maxSpots ≤ 0 then (CreateLotOutcome.validationError, s)
    else if storeOk then
      (CreateLotOutcome.created s.nextLotId, createdState s name price address pin maxSpots)
    else (CreateLotOutcome.persistenceFailed, s)
  | _, _ => (CreateLotOutcome.validationError, s)

/-- The committed effect of an accepted lot edit: the target lot's four
descriptive/pricing fields are overwritten with the form values. -/
def editedState (s : AppState) (lotId : Nat) (f : EditLotForm) : AppState :=
  { s with
    lots := s.lots.map (fun L =>
      if L.id = lotId then
        { L with
          prime_location_name := pyStrip f.prime_location_name,
          price := f.price.getD 0,
          address := pyStrip f.address,
          pin_code := pyStrip f.pin_code }
      else L) }

/-- Route `edit_parking_lot` (`app.py` lines 224-249), POST branch: `none`
models the `get_or_404` miss; otherwise the four descriptive fields are
overwritten unconditionally (no validation) and committed. -/
def edit_parking_lot (s : AppState) (lotId : Nat) (f : EditLotForm) :
    Option AppState :=
  match findLot s lotId with
  | none => none
  | some _ => some (editedState s lotId f)

/-- Outcome of `delete_parking_lot`; `conflict` carries the occupied-spot
count reported in the flash message. -/
inductive DeleteLotOutcome where
  | notFound : DeleteLotOutcome
  | conflict : Nat → DeleteLotOutcome
  | deleted : DeleteLotOutcome
deriving DecidableEq

/-- The committed effect of a successful `delete_parking_lot`: the lot row
and (by the `cascade='all, delete-orphan'` relationship of
`ParkingLot.spots`) every spot row of the lot disappear together. -/
def deletedState (s : AppState) (lotId : Nat) : AppState :=
  { s with
    lots := s.lots.filter (fun L => decide (¬ L.id = lotId)),
    spots := s.spots.filter (fun sp => decide (¬ sp.lot_id = lotId)) }

/-- Route `delete_parking_lot` (`app.py` lines 251-275): refuse while any
spot of the lot is Occupied, else delete the lot and its spots. -/
def delete_parking_lot (s : AppState) (lotId : Nat) : DeleteLotOutcome × AppState :=
  match findLot s lotId with
  | none => (DeleteLotOutcome.notFound, s)
  | some _ =>
    let occ := occupiedCount s lotId
    if occ > 0 then (DeleteLotOutcome.conflict occ, s)
    else (DeleteLotOutcome.deleted, deletedState s lotId)

/-- Outcome of `book_spot`, mirroring the four flash paths of the route. -/
inductive BookOutcome where
  | alreadyParked : BookOutcome
  | lotNotFound : BookOutcome
  | capacityExceeded : BookOutcome
  | booked : Nat → Nat → BookOutcome
deriving DecidableEq

/-- The open reservation row inserted by a successful booking: arrival
timestamp now, capturing the lot's current price, no departure, no cost. -/
def newReservation (s : AppState) (uid : Nat) (lot : ParkingLot)
    (sp : ParkingSpot) (now : ℚ) : ParkingReservation :=
  { id := s.nextResId, spot_id := sp.id, user_id := uid,
    parking_timestamp := now, leaving_timestamp := none,
    parking_cost_per_unit_time := lot.price, total_cost := none }

/-- The committed effect of a successful booking: the chosen spot flips to
Occupied and the open reservation row is inserted, in one commit. -/
def bookedState (s : AppState) (uid : Nat) (lot : ParkingLot)
    (sp : ParkingSpot) (now : ℚ) : AppState :=
  { s with
    spots := s.spots.map (fun t =>
      if t.id = sp.id then { t with status := SpotStatus.O } else t),
    reservations := s.reservations ++ [newReservation s uid lot sp now],
    nextResId := s.nextResId + 1 }

/-- Route `book_spot` (`app.py` lines 324-376): reject a user who already
holds an open reservation, then locate the lot, then the first available
spot; on success insert an open reservation capturing the lot's current
price and flip the chosen spot to Occupied, in one commit.
`booked spotId resId` reports the chosen spot and the new reservation. -/
def book_spot (s : AppState) (uid lotId : Nat) (now : ℚ) : BookOutcome × AppState :=
  match userOpenRes s uid with
  | some _ => (BookOutcome.alreadyParked, s)
  | none =>
    match findLot s lotId with
    | none => (BookOutcome.lotNotFound, s)
    | some lot =>
      match firstAvailableSpot s lotId with
      | none => (BookOutcome.capacityExceeded, s)
      | some sp => (BookOutcome.booked sp.id s.nextResId, bookedState s uid lot sp now)

/-- Outcome of `release_spot`; `released resId cost` carries the closed
reservation's primary key and the `total_cost` shown to the user. -/
inductive ReleaseOutcome where
  | noActiveReservation : ReleaseOutcome
  | released : Nat → ℚ → ReleaseOutcome
deriving DecidableEq

/-- The reservation row after release at clock `now`: `leaving_timestamp`
is stamped first, then `total_cost = calculate_total_cost()` is read off
the already-stamped row (`app.py` lines 398-399). -/
def closedRes (r : ParkingReservation) (now : ℚ) : ParkingReservation :=
  { r with
    leaving_timestamp := some now,
    total_cost := some (calculate_total_cost { r with leaving_timestamp := some now } now) }

/-- The committed effect of a successful release of reservation `r`: the
closed reservation row replaces the open one, and the spot row it
references (when it still exists) flips back to Available. -/
def releasedState (s : AppState) (r : ParkingReservation) (now : ℚ) : AppState :=
  { s with
    reservations := s.reservations.map (fun q => if q.id = r.id then closedRes r now else q),
    spots := s.spots.map (fun t =>
      if t.id = r.spot_id then { t with status := SpotStatus.A } else t) }

/-- Route `release_spot` (`app.py` lines 378-415): find the caller's open
reservation; stamp `leaving_timestamp`, store
`calculate_total_cost`, and flip the reservation's spot (if that row
still exists) back to Available, in one commit. -/
def release_spot (s : AppState) (uid : Nat) (now : ℚ) : ReleaseOutcome × AppState :=
  match userOpenRes s uid with
  | none => (ReleaseOutcome.noActiveReservation, s)
  | some r =>
    (ReleaseOutcome.released r.id
       (calculate_total_cost { r with leaving_timestamp := some now } now),
     releasedState s r now)

/-- States reachable from the fresh database through the mutating routes of
`app.py` (lot creation/edit/deletion, booking, release), at arbitrary
user ids, form contents and clock readings. -/
inductive Reachable : AppState → Prop where
  | init : Reachable initialState
  | createLot (s : AppState) (f : LotForm) (ok : Bool) (h : Reachable s) :
      Reachable (create_parking_lot s f ok).2
  | editLot (s s' : AppState) (lotId : Nat) (f : EditLotForm) (h : Reachable s)
      (he : edit_parking_lot s lotId f = some s') : Reachable s'
  | deleteLot (s : AppState) (lotId : Nat) (h : Reachable s) :
      Reachable (delete_parking_lot s lotId).2
  | book (s : AppState) (uid lotId : Nat) (now : ℚ) (h : Reachable s) :
      Reachable (book_spot s uid lotId now).2
  | release (s : AppState) (uid : Nat) (now : ℚ) (h : Reachable s) :
      Reachable (release_spot s uid now).2

/-! ### A concrete scenario: the "Mall" lot of the specification -/

/-- Create-lot form of the spec's concrete scenario: lot "Mall", rate 10.0
per hour, capacity 2. -/
def mallForm : LotForm :=
  { prime_location_name := "Mall", price := some 10, address := "5 High Street",
    pin_code := "400001", maximum_number_of_spots := some 2 }

/-- Store after the admin creates the "Mall" lot. -/
def mallState : AppState := (create_parking_lot initialState mallForm true).2

/-- Store after user 7 books a spot in the "Mall" lot at t = 3600 s. -/
def bookedMall : AppState := (book_spot mallState 7 1 3600).2

/-- The "Mall" lot row as persisted by `create_parking_lot`. -/
def mallLot : ParkingLot :=
  { id := 1, prime_location_name := "Mall", price := 10,
    address := "5 High Street", pin_code := "400001",
    maximum_number_of_spots := 2 }

/-- The first "Mall" spot row, "MAL-001", as provisioned. -/
def mallSpot1 : ParkingSpot :=
  { id := 1, lot_id := 1, ordinal := 1, spot_number := "MAL-001",
    status := SpotStatus.A }

/-- The open reservation row user 7 holds in `bookedMall`. -/
def mallRes : ParkingReservation :=
  { id := 1, spot_id := 1, user_id := 7, parking_timestamp := 3600,
    leaving_timestamp := none, parking_cost_per_unit_time := 10,
    total_cost := none }

/-- Store after user 7 releases the "Mall" spot at t = 12600 s (2.5 h). -/
def releasedMall : AppState := (release_spot bookedMall 7 12600).2

/-- An edit form with a blank name and a negative price, which
`edit_parking_lot` accepts unchecked. -/
def blankEditForm : EditLotForm :=
  { prime_location_name := "  ", price := some (-5), address := "",
    pin_code := "x" }

/-- Store after the unvalidated edit of the "Mall" lot. -/
def editedMall : AppState :=
  (edit_parking_lot mallState 1 blankEditForm).getD initialState

/-! ### The inductive invariant of the store -/

/-- Invariant maintained by every route: primary keys are below the
counters and strictly increasing along each table, spot ordinals increase
with primary keys inside each lot, every open reservation references an
already-allocated spot id, a spot is Occupied exactly when one open
reservation references it and Available exactly when none does, and no
user holds two open reservations. -/
structure StoreInv (s : AppState) : Prop where
  spot_ids_lt : ∀ sp ∈ s.spots, sp.id < s.nextSpotId
  res_ids_lt : ∀ r ∈ s.reservations, r.id < s.nextResId
  spots_sorted : s.spots.Pairwise (fun a b => a.id < b.id)
  res_sorted : s.reservations.Pairwise (fun a b => a.id < b.id)
  spot_lot_lt : ∀ sp ∈ s.spots, sp.lot_id < s.nextLotId
  ordinal_lt : ∀ sp ∈ s.spots, ∀ sp' ∈ s.spots,
    sp.lot_id = sp'.lot_id → sp.id < sp'.id → sp.ordinal < sp'.ordinal
  open_spot_lt : ∀ r ∈ s.reservations, r.leaving_timestamp = none →
    r.spot_id < s.nextSpotId
  status_occupied : ∀ sp ∈ s.spots, sp.status = SpotStatus.O →
    openResCount s sp.id = 1
  status_available : ∀ sp ∈ s.spots, sp.status = SpotStatus.A →
    openResCount s sp.id = 0
  user_open_le : ∀ uid, userOpenCount s uid ≤ 1

/-! ### Generic list lemmas for key-indexed tables -/

/-- In a list whose keys are pairwise distinct, two members with equal keys
are the same element. -/
theorem mem_eq_of_pairwise_ne {α : Type} (key : α → Nat) {l : List α}
    (h : l.Pairwise (fun a b => key a ≠ key b)) {a b : α}
    (ha : a ∈ l) (hb : b ∈ l) (hk : key a = key b) : a = b := by
  induction l with
  | nil => cases ha
  | cons x xs ih =>
    rcases List.pairwise_cons.mp h with ⟨hx, hxs⟩
    rcases List.mem_cons.mp ha with rfl | ha' <;> rcases List.mem_cons.mp hb with rfl | hb'
    · rfl
    · exact absurd hk (hx _ hb')
    · exact absurd hk.symm (hx _ ha')
    · exact ih hxs ha' hb'

/-- Effect on `countP` of rewriting the unique element with key `k` by `f`. -/
theorem countP_map_update {α : Type} (key : α → Nat) (k : Nat) (f : α → α)
    (p : α → Bool) {l : List α} {r : α}
    (h : l.Pairwise (fun a b => key a ≠ key b)) (hr : r ∈ l) (hk : key r = k) :
    (l.map (fun q => if key q = k then f q else q)).countP p +
      (if p r then 1 else 0) =
    l.countP p + (if p (f r) then 1 else 0) := by
  induction l with
  | nil => cases hr
  | cons a l ih =>
    rcases List.pairwise_cons.mp h with ⟨ha, hl⟩
    rcases List.mem_cons.mp hr with rfl | hr
    · have hmapid : l.map (fun q => if key q = k then f q else q) = l.map id := by
        apply List.map_congr_left
        intro b hb
        have hbk : ¬ key b = k := fun hbk => ha b hb (hk.trans hbk.symm)
        simp [hbk]
      rw [List.map_cons, if_pos hk, hmapid, List.map_id, List.countP_cons,
        List.countP_cons]
      omega
    · have hak : ¬ key a = k := fun hak => ha r hr (hak.trans hk.symm)
      rw [List.map_cons, if_neg hak, List.countP_cons, List.countP_cons]
      have := ih hl hr
      omega

/-- A `find?` hit on a list sorted by `lt` is `lt`-below every other hit. -/
theorem find?_min_of_pairwise {α : Type} {lt : α → α → Prop} {p : α → Bool}
    {l : List α} {a : α} (hs : l.Pairwise lt) (hf : l.find? p = some a)
    {b : α} (hb : b ∈ l) (hpb : p b) : b = a ∨ lt a b := by
  induction l with
  | nil => cases hb
  | cons x xs ih =>
    rcases List.pairwise_cons.mp hs with ⟨hx, hxs⟩
    by_cases hpx : p x
    · have hax : x = a := by
        have hcons := List.find?_cons_of_pos (l := xs) hpx
        rw [hcons] at hf
        exact (Option.some.injEq _ _).mp hf
      rcases List.mem_cons.mp hb with rfl | hb
      · exact Or.inl hax
      · exact Or.inr (hax ▸ hx b hb)
    · have hf' : xs.find? p = some a := by
        have hcons := List.find?_cons_of_neg (l := xs) hpx
        rw [hcons] at hf
        exact hf
      rcases List.mem_cons.mp hb with rfl | hb
      · exact absurd hpb hpx
      · exact ih hxs hf' hb

/-- A `find?` by key commutes with a map that changes no key. -/
theorem find?_key_map {α : Type} (key : α → Nat) (k : Nat) (g : α → α)
    (hg : ∀ x, key (g x) = key x) (l : List α) :
    (l.map g).find? (fun x => decide (key x = k)) =
      (l.find? (fun x => decide (key x = k))).map g := by
  have hfun : ((fun x => decide (key x = k)) ∘ g) = (fun x => decide (key x = k)) := by
    funext x
    simp [Function.comp, hg]
  rw [List.find?_map, hfun]

/-- The fresh database satisfies the invariant. -/
theorem inv_init : StoreInv initialState := by
  constructor <;> simp [initialState, openResCount, userOpenCount]

/-- Members of the provisioned spot block, explicitly. -/
theorem mem_mkSpots {name : String} {lotId firstId n : Nat} {sp : ParkingSpot}
    (h : sp ∈ mkSpots name lotId firstId n) :
    ∃ i, i < n ∧ sp = mkSpot name lotId firstId i := by
  unfold mkSpots at h
  rcases List.mem_map.mp h with ⟨i, hi, rfl⟩
  exact ⟨i, List.mem_range.mp hi, rfl⟩

/-- The provisioned spot block is sorted by primary key. -/
theorem mkSpots_sorted (name : String) (lotId firstId n : Nat) :
    (mkSpots name lotId firstId n).Pairwise (fun a b => a.id < b.id) := by
  unfold mkSpots
  rw [List.pairwise_map]
  exact (List.pairwise_lt_range n).imp (fun hij => by simp [mkSpot]; omega)

/-- The status rewrite applied by booking and release keeps every field of
a spot row except `status`. -/
theorem ite_status_fields (k : Nat) (st : SpotStatus) (y : ParkingSpot) :
    (if y.id = k then { y with status := st } else y).id = y.id ∧
    (if y.id = k then { y with status := st } else y).lot_id = y.lot_id ∧
    (if y.id = k then { y with status := st } else y).ordinal = y.ordinal := by
  split <;> exact ⟨rfl, rfl, rfl⟩

/-- Lot creation touches no reservation row. -/
theorem openResCount_created (s : AppState) (name : String) (price : ℚ)
    (address pin : String) (maxSpots : ℤ) (k : Nat) :
    openResCount (createdState s name price address pin maxSpots) k =
      openResCount s k := rfl

/-- The committed lot-plus-spots insertion preserves the invariant. -/
theorem inv_created (s : AppState) (name : String) (price : ℚ)
    (address pin : String) (maxSpots : ℤ) (h : StoreInv s) :
    StoreInv (createdState s name price address pin maxSpots) := by
  refine ⟨?_, ?_, ?_, ?_, ?_, ?_, ?_, ?_, ?_, ?_⟩
  · intro sp hsp
    rcases List.mem_append.mp hsp with hold | hnew
    · have := h.spot_ids_lt sp hold
      show sp.id < s.nextSpotId + maxSpots.toNat
      omega
    · rcases mem_mkSpots hnew with ⟨i, hi, rfl⟩
      show s.nextSpotId + i < s.nextSpotId + maxSpots.toNat
      omega
  · exact h.res_ids_lt
  · show (s.spots ++ mkSpots name s.nextLotId s.nextSpotId maxSpots.toNat).Pairwise _
    refine List.pairwise_append.mpr ⟨h.spots_sorted, mkSpots_sorted _ _ _ _, ?_⟩
    intro a ha b hb
    have h1 := h.spot_ids_lt a ha
    rcases mem_mkSpots hb with ⟨i, hi, rfl⟩
    show a.id < s.nextSpotId + i
    omega
  · exact h.res_sorted
  · intro sp hsp
    rcases List.mem_append.mp hsp with hold | hnew
    · have := h.spot_lot_lt sp hold
      show sp.lot_id < s.nextLotId + 1
      omega
    · rcases mem_mkSpots hnew with ⟨i, hi, rfl⟩
      show s.nextLotId < s.nextLotId + 1
      omega
  · intro sp hsp sp' hsp'
    rcases List.mem_append.mp hsp with hold | hnew <;>
      rcases List.mem_append.mp hsp' with hold' | hnew'
    · exact h.ordinal_lt sp hold sp' hold'
    · rcases mem_mkSpots hnew' with ⟨i, hi, rfl⟩
      intro heq
      have := h.spot_lot_lt sp hold
      exact absurd heq (by show ¬ sp.lot_id = s.nextLotId; omega)
    · rcases mem_mkSpots hnew with ⟨i, hi, rfl⟩
      intro heq
      have := h.spot_lot_lt sp' hold'
      exact absurd heq.symm (by show ¬ sp'.lot_id = s.nextLotId; omega)
    · rcases mem_mkSpots hnew with ⟨i, hi, rfl⟩
      rcases mem_mkSpots hnew' with ⟨j, hj, rfl⟩
      intro _ hid
      have hij : s.nextSpotId + i < s.nextSpotId + j := hid
      show i + 1 < j + 1
      omega
  · intro r hr hro
    have := h.open_spot_lt r hr hro
    show r.spot_id < s.nextSpotId + maxSpots.toNat
    omega
  · intro sp hsp hst
    rcases List.mem_append.mp hsp with hold | hnew
    · rw [openResCount_created]
      exact h.status_occupied sp hold hst
    · rcases mem_mkSpots hnew with ⟨i, hi, rfl⟩
      exact SpotStatus.noConfusion hst
  · intro sp hsp hst
    rcases List.mem_append.mp hsp with hold | hnew
    · rw [openResCount_created]
      exact h.status_available sp hold hst
    · rcases mem_mkSpots hnew with ⟨i, hi, rfl⟩
      rw [openResCount_created]
      refine List.countP_eq_zero.mpr ?_
      intro r hrmem hp
      rcases of_decide_eq_true hp with ⟨hsid, hopen⟩
      have hlt := h.open_spot_lt r hrmem hopen
      have hid : (mkSpot name s.nextLotId s.nextSpotId i).id = s.nextSpotId + i := rfl
      omega
  · exact h.user_open_le

/-- `create_parking_lot` preserves the invariant on every path. -/
theorem inv_create (s : AppState) (f : LotForm) (ok : Bool) (h : StoreInv s) :
    StoreInv (create_parking_lot s f ok).2 := by
  cases hp : f.price with
  | none =>
    cases hm : f.maximum_number_of_spots <;>
      simp only [create_parking_lot, hp, hm] <;> exact h
  | some price =>
    cases hm : f.maximum_number_of_spots with
    | none => simp only [create_parking_lot, hp, hm]; exact h
    | some maxSpots =>
      simp only [create_parking_lot, hp, hm]
      split_ifs with h1 h2 h3
      · exact h
      · exact h
      · exact inv_created s _ _ _ _ _ h
      · exact h

/-- `edit_parking_lot` preserves the invariant: it rewrites lot rows only. -/
theorem inv_edit {s s' : AppState} {lotId : Nat} {f : EditLotForm}
    (h : StoreInv s) (he : edit_parking_lot s lotId f = some s') : StoreInv s' := by
  unfold edit_parking_lot at he
  cases hfind : findLot s lotId with
  | none => rw [hfind] at he; cases he
  | some lot =>
    rw [hfind] at he
    cases he
    exact ⟨h.spot_ids_lt, h.res_ids_lt, h.spots_sorted, h.res_sorted,
      h.spot_lot_lt, h.ordinal_lt, h.open_spot_lt, h.status_occupied,
      h.status_available, h.user_open_le⟩

/-- Lot deletion touches no reservation row. -/
theorem openResCount_deleted (s : AppState) (lotId k : Nat) :
    openResCount (deletedState s lotId) k = openResCount s k := rfl

/-- The committed lot-plus-spots deletion preserves the invariant. -/
theorem inv_deleted (s : AppState) (lotId : Nat) (h : StoreInv s) :
    StoreInv (deletedState s lotId) := by
  have hsub : (deletedState s lotId).spots.Sublist s.spots := List.filter_sublist _
  have hmem : ∀ sp ∈ (deletedState s lotId).spots, sp ∈ s.spots :=
    fun sp hsp => hsub.mem hsp
  refine ⟨?_, h.res_ids_lt, ?_, h.res_sorted, ?_, ?_, ?_, ?_, ?_, h.user_open_le⟩
  · exact fun sp hsp => h.spot_ids_lt sp (hmem sp hsp)
  · exact h.spots_sorted.sublist hsub
  · exact fun sp hsp => h.spot_lot_lt sp (hmem sp hsp)
  · exact fun sp hsp sp' hsp' => h.ordinal_lt sp (hmem sp hsp) sp' (hmem sp' hsp')
  · exact h.open_spot_lt
  · intro sp hsp hst
    rw [openResCount_deleted]
    exact h.status_occupied sp (hmem sp hsp) hst
  · intro sp hsp hst
    rw [openResCount_deleted]
    exact h.status_available sp (hmem sp hsp) hst

/-- `delete_parking_lot` preserves the invariant on every path. -/
theorem inv_delete (s : AppState) (lotId : Nat) (h : StoreInv s) :
    StoreInv (delete_parking_lot s lotId).2 := by
  unfold delete_parking_lot
  cases hfind : findLot s lotId with
  | none => exact h
  | some lot =>
    simp only []
    split
    · exact h
    · exact inv_deleted s lotId h

/-- Booking appends exactly one open reservation, on the chosen spot. -/
theorem openResCount_booked (s : AppState) (uid : Nat) (lot : ParkingLot)
    (sp : ParkingSpot) (now : ℚ) (k : Nat) :
    openResCount (bookedState s uid lot sp now) k =
      openResCount s k + (if sp.id = k then 1 else 0) := by
  unfold openResCount bookedState newReservation
  rw [List.countP_append]
  simp [List.countP_cons]

/-- Booking appends exactly one open reservation, held by the caller. -/
theorem userOpenCount_booked (s : AppState) (uid : Nat) (lot : ParkingLot)
    (sp : ParkingSpot) (now : ℚ) (u : Nat) :
    userOpenCount (bookedState s uid lot sp now) u =
      userOpenCount s u + (if uid = u then 1 else 0) := by
  unfold userOpenCount bookedState newReservation
  rw [List.countP_append]
  simp [List.countP_cons]

/-- A user that `filter_by(...).first()` finds no open reservation for
holds zero open reservations. -/
theorem userOpenCount_eq_zero_of_none {s : AppState} {uid : Nat}
    (h : userOpenRes s uid = none) : userOpenCount s uid = 0 := by
  unfold userOpenRes at h
  unfold userOpenCount
  refine List.countP_eq_zero.mpr ?_
  intro r hrm
  exact List.find?_eq_none.mp h r hrm

/-- Spot rows after the booking flip, as images of the old rows. -/
theorem bookedState_spots_mem (s : AppState) (uid : Nat) (lot : ParkingLot)
    (sp : ParkingSpot) (now : ℚ) {x : ParkingSpot}
    (hx : x ∈ (bookedState s uid lot sp now).spots) :
    ∃ y ∈ s.spots,
      x = if y.id = sp.id then { y with status := SpotStatus.O } else y := by
  rcases List.mem_map.mp hx with ⟨y, hy, rfl⟩
  exact ⟨y, hy, rfl⟩

/-- The committed booking write preserves the invariant. -/
theorem inv_booked (s : AppState) (uid : Nat) (lot : ParkingLot)
    (sp : ParkingSpot) (now : ℚ) (h : StoreInv s) (hspmem : sp ∈ s.spots)
    (hA : sp.status = SpotStatus.A) (hnores : userOpenRes s uid = none) :
    StoreInv (bookedState s uid lot sp now) := by
  have hpwne : s.spots.Pairwise (fun a b => a.id ≠ b.id) :=
    h.spots_sorted.imp (fun hlt => Nat.ne_of_lt hlt)
  refine ⟨?_, ?_, ?_, ?_, ?_, ?_, ?_, ?_, ?_, ?_⟩
  · intro x hx
    rcases bookedState_spots_mem s uid lot sp now hx with ⟨y, hy, rfl⟩
    have hid := (ite_status_fields sp.id SpotStatus.O y).1
    rw [hid]
    exact h.spot_ids_lt y hy
  · intro r hr
    rcases List.mem_append.mp hr with hold | hnew
    · have := h.res_ids_lt r hold
      show r.id < s.nextResId + 1
      omega
    · rcases List.mem_singleton.mp hnew with rfl
      show s.nextResId < s.nextResId + 1
      omega
  · refine List.pairwise_map.mpr ?_
    refine h.spots_sorted.imp ?_
    intro a b hab
    show (if a.id = sp.id then { a with status := SpotStatus.O } else a).id <
      (if b.id = sp.id then { b with status := SpotStatus.O } else b).id
    rw [(ite_status_fields sp.id SpotStatus.O a).1,
      (ite_status_fields sp.id SpotStatus.O b).1]
    exact hab
  · refine List.pairwise_append.mpr ⟨h.res_sorted, by simp, ?_⟩
    intro a ha b hb
    rcases List.mem_singleton.mp hb with rfl
    exact h.res_ids_lt a ha
  · intro x hx
    rcases bookedState_spots_mem s uid lot sp now hx with ⟨y, hy, rfl⟩
    rw [(ite_status_fields sp.id SpotStatus.O y).2.1]
    exact h.spot_lot_lt y hy
  · intro x hx x' hx'
    rcases bookedState_spots_mem s uid lot sp now hx with ⟨y, hy, rfl⟩
    rcases bookedState_spots_mem s uid lot sp now hx' with ⟨y', hy', rfl⟩
    intro hlid hid
    rw [(ite_status_fields sp.id SpotStatus.O y).2.1,
      (ite_status_fields sp.id SpotStatus.O y').2.1] at hlid
    rw [(ite_status_fields sp.id SpotStatus.O y).1,
      (ite_status_fields sp.id SpotStatus.O y').1] at hid
    rw [(ite_status_fields sp.id SpotStatus.O y).2.2,
      (ite_status_fields sp.id SpotStatus.O y').2.2]
    exact h.ordinal_lt y hy y' hy' hlid hid
  · intro r hr hro
    rcases List.mem_append.mp hr with hold | hnew
    · exact h.open_spot_lt r hold hro
    · rcases List.mem_singleton.mp hnew with rfl
      show sp.id < s.nextSpotId
      exact h.spot_ids_lt sp hspmem
  · intro x hx hst
    rcases bookedState_spots_mem s uid lot sp now hx with ⟨y, hy, rfl⟩
    rw [openResCount_booked, (ite_status_fields sp.id SpotStatus.O y).1]
    by_cases hyid : y.id = sp.id
    · have hysp : y = sp := mem_eq_of_pairwise_ne (fun z => z.id) hpwne hy hspmem hyid
      have hc0 : openResCount s sp.id = 0 := h.status_available sp hspmem hA
      rw [hysp, hc0, if_pos rfl]
    · rw [if_neg hyid] at hst
      rw [if_neg (fun hh => hyid hh.symm)]
      have := h.status_occupied y hy hst
      omega
  · intro x hx hst
    rcases bookedState_spots_mem s uid lot sp now hx with ⟨y, hy, rfl⟩
    rw [openResCount_booked, (ite_status_fields sp.id SpotStatus.O y).1]
    by_cases hyid : y.id = sp.id
    · rw [if_pos hyid] at hst
      exact SpotStatus.noConfusion hst
    · rw [if_neg hyid] at hst
      rw [if_neg (fun hh => hyid hh.symm)]
      have := h.status_available y hy hst
      omega
  · intro u
    rw [userOpenCount_booked]
    by_cases hu : uid = u
    · subst hu
      rw [userOpenCount_eq_zero_of_none hnores, if_pos rfl]
    · rw [if_neg hu]
      have := h.user_open_le u
      omega

/-- `book_spot` preserves the invariant on every path. -/
theorem inv_book (s : AppState) (uid lotId : Nat) (now : ℚ) (h : StoreInv s) :
    StoreInv (book_spot s uid lotId now).2 := by
  unfold book_spot
  cases hres : userOpenRes s uid with
  | some r => exact h
  | none =>
    cases hlot : findLot s lotId with
    | none => exact h
    | some lot =>
      cases hsp : firstAvailableSpot s lotId with
      | none => exact h
      | some sp =>
        have hspmem : sp ∈ s.spots := List.mem_of_find?_eq_some hsp
        have hpred := List.find?_some hsp
        rcases of_decide_eq_true hpred with ⟨hlid, hA⟩
        exact inv_booked s uid lot sp now h hspmem hA hres

/-- The closing rewrite keeps the reservation's primary key. -/
theorem ite_closed_id (r : ParkingReservation) (now : ℚ) (q : ParkingReservation) :
    (if q.id = r.id then closedRes r now else q).id = q.id := by
  by_cases hq : q.id = r.id
  · rw [if_pos hq]
    exact hq.symm
  · rw [if_neg hq]

/-- Release closes exactly one open reservation, the one on `r.spot_id`. -/
theorem openResCount_released (s : AppState) (r : ParkingReservation) (now : ℚ)
    (h : StoreInv s) (hr : r ∈ s.reservations)
    (hopen : r.leaving_timestamp = none) (k : Nat) :
    openResCount (releasedState s r now) k + (if r.spot_id = k then 1 else 0) =
      openResCount s k := by
  have hpwne : s.reservations.Pairwise (fun a b => a.id ≠ b.id) :=
    h.res_sorted.imp (fun hlt => Nat.ne_of_lt hlt)
  have key := countP_map_update (fun q : ParkingReservation => q.id) r.id
    (fun _ => closedRes r now)
    (fun q => decide (q.spot_id = k ∧ q.leaving_timestamp = none)) hpwne hr rfl
  unfold openResCount releasedState
  simp only [hopen, and_true, decide_eq_true_eq, closedRes] at key
  simpa using key

/-- Release closes exactly one open reservation, held by `r.user_id`. -/
theorem userOpenCount_released (s : AppState) (r : ParkingReservation) (now : ℚ)
    (h : StoreInv s) (hr : r ∈ s.reservations)
    (hopen : r.leaving_timestamp = none) (u : Nat) :
    userOpenCount (releasedState s r now) u + (if r.user_id = u then 1 else 0) =
      userOpenCount s u := by
  have hpwne : s.reservations.Pairwise (fun a b => a.id ≠ b.id) :=
    h.res_sorted.imp (fun hlt => Nat.ne_of_lt hlt)
  have key := countP_map_update (fun q : ParkingReservation => q.id) r.id
    (fun _ => closedRes r now)
    (fun q => decide (q.user_id = u ∧ q.leaving_timestamp = none)) hpwne hr rfl
  unfold userOpenCount releasedState
  simp only [hopen, and_true, decide_eq_true_eq, closedRes] at key
  simpa using key

/-- Spot rows after the release flip, as images of the old rows. -/
theorem releasedState_spots_mem (s : AppState) (r : ParkingReservation)
    (now : ℚ) {x : ParkingSpot} (hx : x ∈ (releasedState s r now).spots) :
    ∃ y ∈ s.spots,
      x = if y.id = r.spot_id then { y with status := SpotStatus.A } else y := by
  rcases List.mem_map.mp hx with ⟨y, hy, rfl⟩
  exact ⟨y, hy, rfl⟩

/-- The committed release write preserves the invariant. -/
theorem inv_released (s : AppState) (r : ParkingReservation) (now : ℚ)
    (h : StoreInv s) (hr : r ∈ s.reservations)
    (hopen : r.leaving_timestamp = none) :
    StoreInv (releasedState s r now) := by
  have hresmem : ∀ x ∈ (releasedState s r now).reservations,
      ∃ q ∈ s.reservations, x = if q.id = r.id then closedRes r now else q := by
    intro x hx
    rcases List.mem_map.mp hx with ⟨q, hq, rfl⟩
    exact ⟨q, hq, rfl⟩
  refine ⟨?_, ?_, ?_, ?_, ?_, ?_, ?_, ?_, ?_, ?_⟩
  · intro x hx
    rcases releasedState_spots_mem s r now hx with ⟨y, hy, rfl⟩
    rw [(ite_status_fields r.spot_id SpotStatus.A y).1]
    exact h.spot_ids_lt y hy
  · intro x hx
    rcases hresmem x hx with ⟨q, hq, rfl⟩
    rw [ite_closed_id]
    exact h.res_ids_lt q hq
  · refine List.pairwise_map.mpr ?_
    refine h.spots_sorted.imp ?_
    intro a b hab
    show (if a.id = r.spot_id then { a with status := SpotStatus.A } else a).id <
      (if b.id = r.spot_id then { b with status := SpotStatus.A } else b).id
    rw [(ite_status_fields r.spot_id SpotStatus.A a).1,
      (ite_status_fields r.spot_id SpotStatus.A b).1]
    exact hab
  · refine List.pairwise_map.mpr ?_
    refine h.res_sorted.imp ?_
    intro a b hab
    show (if a.id = r.id then closedRes r now else a).id <
      (if b.id = r.id then closedRes r now else b).id
    rw [ite_closed_id, ite_closed_id]
    exact hab
  · intro x hx
    rcases releasedState_spots_mem s r now hx with ⟨y, hy, rfl⟩
    rw [(ite_status_fields r.spot_id SpotStatus.A y).2.1]
    exact h.spot_lot_lt y hy
  · intro x hx x' hx'
    rcases releasedState_spots_mem s r now hx with ⟨y, hy, rfl⟩
    rcases releasedState_spots_mem s r now hx' with ⟨y', hy', rfl⟩
    intro hlid hid
    rw [(ite_status_fields r.spot_id SpotStatus.A y).2.1,
      (ite_status_fields r.spot_id SpotStatus.A y').2.1] at hlid
    rw [(ite_status_fields r.spot_id SpotStatus.A y).1,
      (ite_status_fields r.spot_id SpotStatus.A y').1] at hid
    rw [(ite_status_fields r.spot_id SpotStatus.A y).2.2,
      (ite_status_fields r.spot_id SpotStatus.A y').2.2]
    exact h.ordinal_lt y hy y' hy' hlid hid
  · intro x hx hxo
    rcases hresmem x hx with ⟨q, hq, rfl⟩
    by_cases hqid : q.id = r.id
    · rw [if_pos hqid] at hxo
      exact Option.noConfusion hxo
    · rw [if_neg hqid] at hxo ⊢
      exact h.open_spot_lt q hq hxo
  · intro x hx hst
    rcases releasedState_spots_mem s r now hx with ⟨y, hy, rfl⟩
    have hcnt := openResCount_released s r now h hr hopen y.id
    rw [(ite_status_fields r.spot_id SpotStatus.A y).1]
    by_cases hyid : y.id = r.spot_id
    · rw [if_pos hyid] at hst
      exact SpotStatus.noConfusion hst
    · rw [if_neg hyid] at hst
      rw [if_neg (fun hh => hyid hh.symm)] at hcnt
      have := h.status_occupied y hy hst
      omega
  · intro x hx hst
    rcases releasedState_spots_mem s r now hx with ⟨y, hy, rfl⟩
    have hcnt := openResCount_released s r now h hr hopen y.id
    rw [(ite_status_fields r.spot_id SpotStatus.A y).1]
    by_cases hyid : y.id = r.spot_id
    · rw [if_pos (hyid.symm)] at hcnt
      have hpos : 0 < openResCount s y.id := by
        unfold openResCount
        refine List.countP_pos_iff.mpr ?_
        exact ⟨r, hr, by simp [hopen, hyid]⟩
      cases hys : y.status with
      | A => have := h.status_available y hy hys; omega
      | O => have := h.status_occupied y hy hys; omega
    · rw [if_neg hyid] at hst
      rw [if_neg (fun hh => hyid hh.symm)] at hcnt
      have := h.status_available y hy hst
      omega
  · intro u
    have hcnt := userOpenCount_released s r now h hr hopen u
    have := h.user_open_le u
    by_cases hu : r.user_id = u
    · rw [if_pos hu] at hcnt
      omega
    · rw [if_neg hu] at hcnt
      omega

/-- `release_spot` preserves the invariant on every path. -/
theorem inv_release (s : AppState) (uid : Nat) (now : ℚ) (h : StoreInv s) :
    StoreInv (release_spot s uid now).2 := by
  unfold release_spot
  cases hres : userOpenRes s uid with
  | none => exact h
  | some r =>
    have hrm : r ∈ s.reservations := List.mem_of_find?_eq_some hres
    have hpred := List.find?_some hres
    rcases of_decide_eq_true hpred with ⟨huid, hopen⟩
    exact inv_released s r now h hrm hopen

/-- Every reachable store satisfies the invariant. -/
theorem reachable_inv {s : AppState} (h : Reachable s) : StoreInv s := by
  induction h with
  | init => exact inv_init
  | createLot s f ok _ ih => exact inv_create s f ok ih
  | editLot s s' lotId f _ he ih => exact inv_edit ih he
  | deleteLot s lotId _ ih => exact inv_delete s lotId ih
  | book s uid lotId now _ ih => exact inv_book s uid lotId now ih
  | release s uid now _ ih => exact inv_release s uid now ih

/-! ### Support lemmas for the claims -/

/-- In a key-distinct list, `find?` by a member's key returns that member. -/
theorem find?_key_of_mem {α : Type} (key : α → Nat) {l : List α}
    (h : l.Pairwise (fun a b => key a ≠ key b)) {x : α} (hx : x ∈ l) :
    l.find? (fun y => decide (key y = key x)) = some x := by
  induction l with
  | nil => cases hx
  | cons a l ih =>
    rcases List.pairwise_cons.mp h with ⟨ha, hl⟩
    rcases List.mem_cons.mp hx with rfl | hx'
    · exact List.find?_cons_of_pos _ (by simp)
    · rw [List.find?_cons_of_neg _ (by simp [ha x hx'])]
      exact ih hl hx'

/-- Inversion of a successful booking. -/
theorem book_spot_booked {s : AppState} {uid lotId : Nat} {now : ℚ}
    {spotId resId : Nat} {s' : AppState}
    (hb : book_spot s uid lotId now = (BookOutcome.booked spotId resId, s')) :
    ∃ lot sp, userOpenRes s uid = none ∧ findLot s lotId = some lot ∧
      firstAvailableSpot s lotId = some sp ∧ sp.id = spotId ∧
      resId = s.nextResId ∧ s' = bookedState s uid lot sp now := by
  unfold book_spot at hb
  cases hres : userOpenRes s uid with
  | some r => rw [hres] at hb; simp at hb
  | none =>
    rw [hres] at hb
    cases hlot : findLot s lotId with
    | none => rw [hlot] at hb; simp at hb
    | some lot =>
      rw [hlot] at hb
      cases hsp : firstAvailableSpot s lotId with
      | none => rw [hsp] at hb; simp at hb
      | some sp =>
        rw [hsp] at hb
        injection hb with h1 h2
        injection h1 with h3 h4
        exact ⟨lot, sp, rfl, rfl, rfl, h3, h4.symm, h2.symm⟩

/-- Inversion of a successful release. -/
theorem release_spot_released {s : AppState} {uid : Nat} {now : ℚ}
    {resId : Nat} {c : ℚ} {s' : AppState}
    (hb : release_spot s uid now = (ReleaseOutcome.released resId c, s')) :
    ∃ r, userOpenRes s uid = some r ∧ r.id = resId ∧
      c = calculate_total_cost { r with leaving_timestamp := some now } now ∧
      s' = releasedState s r now := by
  unfold release_spot at hb
  cases hres : userOpenRes s uid with
  | none => rw [hres] at hb; simp at hb
  | some r =>
    rw [hres] at hb
    injection hb with h1 h2
    injection h1 with h3 h4
    exact ⟨r, rfl, h3, h4.symm, h2.symm⟩

/-- After a booking by a user with no prior open reservation, the user's
open reservation is exactly the inserted row. -/
theorem userOpenRes_bookedState (s : AppState) (uid : Nat) (lot : ParkingLot)
    (sp : ParkingSpot) (now : ℚ) (hnone : userOpenRes s uid = none) :
    userOpenRes (bookedState s uid lot sp now) uid =
      some (newReservation s uid lot sp now) := by
  unfold userOpenRes at hnone ⊢
  show (s.reservations ++ [newReservation s uid lot sp now]).find? _ = _
  rw [List.find?_append, hnone]
  simp [newReservation]

/-- Status query for a member spot, under the invariant. -/
theorem spotStatusById_eq_of_mem {s : AppState} (h : StoreInv s)
    {sp : ParkingSpot} (hsp : sp ∈ s.spots) :
    spotStatusById s sp.id = some sp.status := by
  have hpwne : s.spots.Pairwise (fun a b => a.id ≠ b.id) :=
    h.spots_sorted.imp (fun hlt => Nat.ne_of_lt hlt)
  unfold spotStatusById
  rw [find?_key_of_mem (fun z => z.id) hpwne hsp]
  rfl

/-- Status query after the booking flip, on an arbitrary base store. -/
theorem spotStatusById_bookedState (s : AppState) (uid : Nat)
    (lot : ParkingLot) (sp : ParkingSpot) (now : ℚ) (j : Nat) :
    spotStatusById (bookedState s uid lot sp now) j =
      (s.spots.find? (fun y => decide (y.id = j))).map
        (fun y => if y.id = sp.id then SpotStatus.O else y.status) := by
  unfold spotStatusById bookedState
  rw [find?_key_map (fun z => z.id) j _
    (fun x => (ite_status_fields sp.id SpotStatus.O x).1)]
  cases s.spots.find? (fun y => decide (y.id = j)) with
  | none => rfl
  | some y =>
    show some (if y.id = sp.id then { y with status := SpotStatus.O } else y).status = _
    by_cases hy : y.id = sp.id <;> simp [Option.map, hy]

/-- Status query after the release flip, on an arbitrary base store. -/
theorem spotStatusById_releasedState (s : AppState) (r : ParkingReservation)
    (now : ℚ) (j : Nat) :
    spotStatusById (releasedState s r now) j =
      (s.spots.find? (fun y => decide (y.id = j))).map
        (fun y => if y.id = r.spot_id then SpotStatus.A else y.status) := by
  unfold spotStatusById releasedState
  rw [find?_key_map (fun z => z.id) j _
    (fun x => (ite_status_fields r.spot_id SpotStatus.A x).1)]
  cases s.spots.find? (fun y => decide (y.id = j)) with
  | none => rfl
  | some y =>
    show some (if y.id = r.spot_id then { y with status := SpotStatus.A } else y).status = _
    by_cases hy : y.id = r.spot_id <;> simp [Option.map, hy]

/-- The "Mall" store is reachable. -/
theorem mallState_reachable : Reachable mallState :=
  Reachable.createLot initialState mallForm true Reachable.init

/-- The booked "Mall" store is reachable. -/
theorem bookedMall_reachable : Reachable bookedMall :=
  Reachable.book mallState 7 1 3600 mallState_reachable

/-! ### The claims -/

/-- C1: in every reachable store, a spot's status is Occupied exactly when
one open reservation references it and Available otherwise; a successful
booking flips the chosen spot Available to Occupied, and the same user's
following release flips it back to Available, with both post-states again
reachable (each write preserves the invariant). -/
theorem C1_spot_status_invariant :
    (∀ s, Reachable s → ∀ sp ∈ s.spots,
      (sp.status = SpotStatus.O ↔ openResCount s sp.id = 1) ∧
      (sp.status = SpotStatus.A ↔ ¬ openResCount s sp.id = 1)) ∧
    (∀ s uid lotId now spotId resId s', Reachable s →
      book_spot s uid lotId now = (BookOutcome.booked spotId resId, s') →
      spotStatusById s spotId = some SpotStatus.A ∧
      spotStatusById s' spotId = some SpotStatus.O ∧ Reachable s' ∧
      ∀ now', ∃ c s'',
        release_spot s' uid now' = (ReleaseOutcome.released resId c, s'') ∧
        spotStatusById s'' spotId = some SpotStatus.A ∧ Reachable s'') := by
  constructor
  · intro s hs sp hsp
    have inv := reachable_inv hs
    refine ⟨⟨fun hO => inv.status_occupied sp hsp hO, ?_⟩, ?_, ?_⟩
    · intro h1
      cases hst : sp.status with
      | O => rfl
      | A => have := inv.status_available sp hsp hst; omega
    · intro hA
      have := inv.status_available sp hsp hA
      omega
    · intro h1
      cases hst : sp.status with
      | A => rfl
      | O => exact absurd (inv.status_occupied sp hsp hst) h1
  · intro s uid lotId now spotId resId s' hs hb
    have inv := reachable_inv hs
    have hpwne : s.spots.Pairwise (fun a b => a.id ≠ b.id) :=
      inv.spots_sorted.imp (fun hlt => Nat.ne_of_lt hlt)
    rcases book_spot_booked hb with ⟨lot, sp, hres, hlotq, hspq, hid, hrid, hs'⟩
    have hspmem : sp ∈ s.spots := List.mem_of_find?_eq_some hspq
    have hpred := List.find?_some hspq
    rcases of_decide_eq_true hpred with ⟨hlid, hA⟩
    subst hid hrid hs'
    have hfind : s.spots.find? (fun y => decide (y.id = sp.id)) = some sp :=
      find?_key_of_mem (fun z => z.id) hpwne hspmem
    refine ⟨?_, ?_, ?_, ?_⟩
    · rw [spotStatusById_eq_of_mem inv hspmem, hA]
    · rw [spotStatusById_bookedState, hfind]
      simp
    · have hre := Reachable.book s uid lotId now hs
      have h2 : (book_spot s uid lotId now).2 = bookedState s uid lot sp now := by
        rw [hb]
      rw [h2] at hre
      exact hre
    · intro now'
      have hres' := userOpenRes_bookedState s uid lot sp now hres
      refine ⟨calculate_total_cost { newReservation s uid lot sp now with
          leaving_timestamp := some now' } now',
        releasedState (bookedState s uid lot sp now)
          (newReservation s uid lot sp now) now', ?_, ?_, ?_⟩
      · show release_spot _ _ _ = _
        unfold release_spot
        rw [hres']
        rfl
      · rw [spotStatusById_releasedState]
        have hfb : (bookedState s uid lot sp now).spots.find?
            (fun y => decide (y.id = sp.id)) =
            some (if sp.id = sp.id then { sp with status := SpotStatus.O } else sp) := by
          show (s.spots.map _).find? _ = _
          rw [find?_key_map (fun z => z.id) sp.id _
            (fun x => (ite_status_fields sp.id SpotStatus.O x).1), hfind]
          rfl
        rw [hfb]
        simp [newReservation]
      · have h1 := Reachable.book s uid lotId now hs
        have h2 : (book_spot s uid lotId now).2 = bookedState s uid lot sp now := by
          rw [hb]
        rw [h2] at h1
        have h3 := Reachable.release (bookedState s uid lot sp now) uid now' h1
        have h4 : (release_spot (bookedState s uid lot sp now) uid now').2 =
            releasedState (bookedState s uid lot sp now)
              (newReservation s uid lot sp now) now' := by
          unfold release_spot
          rw [hres']
        rw [h4] at h3
        exact h3

/-- C1 witness: in the "Mall" scenario the booked spot 1 goes
Available → Occupied → Available across book and release. -/
theorem C1_spot_status_invariant_witness :
    spotStatusById mallState 1 = some SpotStatus.A ∧
    spotStatusById bookedMall 1 = some SpotStatus.O ∧
    spotStatusById (release_spot bookedMall 7 12600).2 1 = some SpotStatus.A := by
  have h := C1_spot_status_invariant.2 mallState 7 1 3600 1 1 bookedMall
    mallState_reachable (by decide)
  rcases h.2.2.2 12600 with ⟨c, s'', heq, hstat, _⟩
  refine ⟨h.1, h.2.1, ?_⟩
  have h5 : (release_spot bookedMall 7 12600).2 = s'' := by rw [heq]
  rw [h5]
  exact hstat

/-- C2: in every reachable store each user holds at most one open
reservation, and a booking by a user who already holds one fails with the
AlreadyParked outcome, returning the store unchanged. -/
theorem C2_single_open_reservation_per_user :
    (∀ s, Reachable s → ∀ uid, userOpenCount s uid ≤ 1) ∧
    (∀ s uid lotId now, Reachable s →
      (∃ r ∈ s.reservations, r.user_id = uid ∧ r.leaving_timestamp = none) →
      book_spot s uid lotId now = (BookOutcome.alreadyParked, s)) := by
  constructor
  · intro s hs uid
    exact (reachable_inv hs).user_open_le uid
  · intro s uid lotId now _ hex
    cases hres : userOpenRes s uid with
    | none =>
      rcases hex with ⟨r, hr, h1, h2⟩
      have hno := List.find?_eq_none.mp hres r hr
      exact absurd (by simp [h1, h2]) hno
    | some r =>
      unfold book_spot
      rw [hres]

/-- C2 witness: user 7, already parked in the "Mall" scenario, cannot book
again. -/
theorem C2_single_open_reservation_per_user_witness :
    userOpenCount bookedMall 7 ≤ 1 ∧
    book_spot bookedMall 7 1 4000 = (BookOutcome.alreadyParked, bookedMall) :=
  ⟨C2_single_open_reservation_per_user.1 bookedMall bookedMall_reachable 7,
   C2_single_open_reservation_per_user.2 bookedMall 7 1 4000 bookedMall_reachable
     (by decide)⟩

/-- C3: the code does not clamp a backwards clock. Booking the "Mall" spot
at t = 3600 s and releasing at t = 0 s (departure before arrival) makes
the code report and store a total cost of −10.00 at rate 10/hour —
`duration_hours` is −1 — instead of treating the elapsed duration as
zero, so Release can produce a negative `totalCost`. -/
theorem C3_negative_cost_on_clock_rollback :
    (release_spot bookedMall 7 0).1 =
      ReleaseOutcome.released 1 (round2 ((0 - 3600) / 3600 * 10)) ∧
    round2 ((0 - 3600 : ℚ) / 3600 * 10) = -10 ∧
    ((release_spot bookedMall 7 0).2.reservations.map
      (fun r => r.total_cost)) = [some (round2 ((0 - 3600) / 3600 * 10))] ∧
    duration_hours { mallRes with leaving_timestamp := some 0 } 0 = -1 ∧
    ((-10 : ℚ) < 0) := by
  have hres : userOpenRes bookedMall 7 = some mallRes := by decide
  have hlist : bookedMall.reservations = [mallRes] := by decide
  refine ⟨?_, by norm_num [round2, pyRound], ?_, ?_, by norm_num⟩
  · unfold release_spot
    rw [hres]
    rfl
  · unfold release_spot
    rw [hres]
    show (releasedState bookedMall mallRes 0).reservations.map _ = _
    unfold releasedState
    rw [hlist]
    rfl
  · show ((0 : ℚ) - 3600) / 3600 = -1
    norm_num

/-- C4: releasing at a departure time at or after arrival stores and
reports totalCost = round2(elapsedSeconds / 3600 × capturedRate) where
the captured rate is the one on the reservation row; booking copies that
rate from the lot's current price; and 2.5 h at 10/hour rounds to 25. -/
theorem C4_release_cost_formula :
    (∀ s uid now r, userOpenRes s uid = some r → r.parking_timestamp ≤ now →
      release_spot s uid now =
        (ReleaseOutcome.released r.id
          (round2 ((now - r.parking_timestamp) / 3600 *
            r.parking_cost_per_unit_time)), releasedState s r now) ∧
      ∀ q ∈ (releasedState s r now).reservations, q.id = r.id →
        q.total_cost = some (round2 ((now - r.parking_timestamp) / 3600 *
          r.parking_cost_per_unit_time))) ∧
    (∀ s uid lotId now spotId resId s', Reachable s →
      book_spot s uid lotId now = (BookOutcome.booked spotId resId, s') →
      ∃ lot, findLot s lotId = some lot ∧
        ∀ q ∈ s'.reservations, q.id = resId →
          q.parking_cost_per_unit_time = lot.price) ∧
    round2 ((9000 : ℚ) / 3600 * 10) = 25 := by
  refine ⟨?_, ?_, by norm_num [round2, pyRound]⟩
  · intro s uid now r hres hle
    constructor
    · unfold release_spot
      rw [hres]
      rfl
    · intro q hq hqid
      rcases List.mem_map.mp hq with ⟨y, hy, rfl⟩
      by_cases hyid : y.id = r.id
      · rw [if_pos hyid]
        rfl
      · rw [if_neg hyid] at hqid ⊢
        exact absurd hqid hyid
  · intro s uid lotId now spotId resId s' hs hb
    have inv := reachable_inv hs
    rcases book_spot_booked hb with ⟨lot, sp, hres, hlotq, hspq, hid, hrid, hs'⟩
    subst hrid hs'
    refine ⟨lot, hlotq, ?_⟩
    intro q hq hqid
    rcases List.mem_append.mp hq with hold | hnew
    · have := inv.res_ids_lt q hold
      omega
    · rcases List.mem_singleton.mp hnew with rfl
      rfl

/-- C4 witness: releasing user 7's "Mall" reservation 2.5 hours after
arrival yields the rounded cost on the stated formula. -/
theorem C4_release_cost_formula_witness :
    release_spot bookedMall 7 12600 =
      (ReleaseOutcome.released 1 (round2 ((12600 - 3600) / 3600 * 10)),
       releasedState bookedMall mallRes 12600) :=
  (C4_release_cost_formula.1 bookedMall 7 12600 mallRes (by decide)
    (by decide)).1

/-- C5: booking on an existing lot by a user with no open reservation
assigns the Available spot of the lot with the least ordinal when one
exists, and fails with the capacity outcome leaving the store unchanged
when no spot of the lot is Available. -/
theorem C5_first_fit_selection :
    ∀ s uid lotId now lot, Reachable s → findLot s lotId = some lot →
      userOpenRes s uid = none →
      ((∃ sp ∈ s.spots, sp.lot_id = lotId ∧ sp.status = SpotStatus.A) →
        ∃ sp s', book_spot s uid lotId now =
            (BookOutcome.booked sp.id s.nextResId, s') ∧
          sp ∈ s.spots ∧ sp.lot_id = lotId ∧ sp.status = SpotStatus.A ∧
          ∀ sp' ∈ s.spots, sp'.lot_id = lotId → sp'.status = SpotStatus.A →
            sp' ≠ sp → sp.ordinal < sp'.ordinal) ∧
      ((¬ ∃ sp ∈ s.spots, sp.lot_id = lotId ∧ sp.status = SpotStatus.A) →
        book_spot s uid lotId now = (BookOutcome.capacityExceeded, s)) := by
  intro s uid lotId now lot hs hlot hres
  have inv := reachable_inv hs
  constructor
  · intro hex
    cases hsp : firstAvailableSpot s lotId with
    | none =>
      rcases hex with ⟨sp, hspmem, h1, h2⟩
      unfold firstAvailableSpot at hsp
      have hno := List.find?_eq_none.mp hsp sp hspmem
      exact absurd (by simp [h1, h2]) hno
    | some sp =>
      have hspmem : sp ∈ s.spots := List.mem_of_find?_eq_some hsp
      have hpred := List.find?_some hsp
      rcases of_decide_eq_true hpred with ⟨hlid, hA⟩
      refine ⟨sp, bookedState s uid lot sp now, ?_, hspmem, hlid, hA, ?_⟩
      · unfold book_spot
        rw [hres, hlot, hsp]
      · intro sp' hsp' hlid' hA' hne
        unfold firstAvailableSpot at hsp
        have hmin := find?_min_of_pairwise inv.spots_sorted hsp hsp'
          (by simp [hlid', hA'])
        rcases hmin with rfl | hidlt
        · exact absurd rfl hne
        · exact inv.ordinal_lt sp hspmem sp' hsp' (hlid.trans hlid'.symm) hidlt
  · intro hnex
    cases hsp : firstAvailableSpot s lotId with
    | some sp =>
      have hspmem : sp ∈ s.spots := List.mem_of_find?_eq_some hsp
      have hpred := List.find?_some hsp
      rcases of_decide_eq_true hpred with ⟨h1, h2⟩
      exact absurd ⟨sp, hspmem, h1, h2⟩ hnex
    | none =>
      unfold book_spot
      rw [hres, hlot, hsp]

/-- C5 witness: in the fresh "Mall" lot, user 7's booking picks an
Available spot of minimal ordinal (concretely spot "MAL-001"). -/
theorem C5_first_fit_selection_witness :
    ∃ sp s', book_spot mallState 7 1 3600 =
        (BookOutcome.booked sp.id mallState.nextResId, s') ∧
      sp ∈ mallState.spots ∧ sp.lot_id = 1 ∧ sp.status = SpotStatus.A ∧
      ∀ sp' ∈ mallState.spots, sp'.lot_id = 1 → sp'.status = SpotStatus.A →
        sp' ≠ sp → sp.ordinal < sp'.ordinal :=
  (C5_first_fit_selection mallState 7 1 3600 mallLot mallState_reachable
    (by decide) (by decide)).1 ⟨mallSpot1, by decide, by decide, by decide⟩

/-- Validation paths of `create_parking_lot`: a blank field, a
missing/unparsable numeric, or a non-positive numeric is rejected with the
store unchanged, whatever the store flag. -/
theorem create_lot_validation (s : AppState) (f : LotForm) (ok : Bool)
    (hval : pyStrip f.prime_location_name = "" ∨ pyStrip f.address = "" ∨
      pyStrip f.pin_code = "" ∨ f.price = none ∨
      f.maximum_number_of_spots = none ∨
      (∃ p, f.price = some p ∧ p ≤ 0) ∨
      (∃ m, f.maximum_number_of_spots = some m ∧ m ≤ 0)) :
    create_parking_lot s f ok = (CreateLotOutcome.validationError, s) := by
  cases hp : f.price with
  | none =>
    cases hm : f.maximum_number_of_spots <;>
      simp only [create_parking_lot, hp, hm]
  | some price =>
    cases hm : f.maximum_number_of_spots with
    | none => simp only [create_parking_lot, hp, hm]
    | some maxSpots =>
      simp only [create_parking_lot, hp, hm]
      rcases hval with h | h | h | h | h | ⟨p, hp2, hple⟩ | ⟨m, hm2, hmle⟩
      · rw [if_pos (Or.inl h)]
      · rw [if_pos (Or.inr (Or.inl h))]
      · rw [if_pos (Or.inr (Or.inr h))]
      · rw [hp] at h; cases h
      · rw [hm] at h; cases h
      · rw [hp] at hp2
        injection hp2 with hpe
        subst hpe
        by_cases hc1 : (pyStrip f.prime_location_name = "" ∨
            pyStrip f.address = "" ∨ pyStrip f.pin_code = "")
        · rw [if_pos hc1]
        · rw [if_neg hc1, if_pos (Or.inl hple)]
      · rw [hm] at hm2
        injection hm2 with hme
        subst hme
        by_cases hc1 : (pyStrip f.prime_location_name = "" ∨
            pyStrip f.address = "" ∨ pyStrip f.pin_code = "")
        · rw [if_pos hc1]
        · rw [if_neg hc1, if_pos (Or.inr hmle)]

/-- C6: a valid CreateLot form (non-blank fields, positive rate, positive
capacity n) provisions the lot row plus exactly n spot rows with ordinals
1..n in ascending position order, all Available, labelled with the first
three name characters uppercased, a hyphen and the zero-padded ordinal;
any validation failure, and a store failure, leaves the store unchanged
(nothing is persisted). -/
theorem C6_create_lot_provisioning :
    (∀ s f price maxSpots, f.price = some price →
      f.maximum_number_of_spots = some maxSpots →
      pyStrip f.prime_location_name ≠ "" → pyStrip f.address ≠ "" →
      pyStrip f.pin_code ≠ "" → 0 < price → 0 < maxSpots →
      ∃ s', create_parking_lot s f true =
          (CreateLotOutcome.created s.nextLotId, s') ∧
        s'.lots = s.lots ++ [createdLotRow s f price maxSpots] ∧
        s'.reservations = s.reservations ∧
        ∃ ns, s'.spots = s.spots ++ ns ∧ ns.length = maxSpots.toNat ∧
          ∀ i (hi : i < ns.length),
            (ns.get ⟨i, hi⟩).lot_id = s.nextLotId ∧
            (ns.get ⟨i, hi⟩).ordinal = i + 1 ∧
            (ns.get ⟨i, hi⟩).status = SpotStatus.A ∧
            (ns.get ⟨i, hi⟩).spot_number =
              pyUpper ((pyStrip f.prime_location_name).take 3) ++ "-" ++
                pad3 (i + 1)) ∧
    (∀ s f ok, (pyStrip f.prime_location_name = "" ∨ pyStrip f.address = "" ∨
        pyStrip f.pin_code = "" ∨ f.price = none ∨
        f.maximum_number_of_spots = none ∨
        (∃ p, f.price = some p ∧ p ≤ 0) ∨
        (∃ m, f.maximum_number_of_spots = some m ∧ m ≤ 0)) →
      create_parking_lot s f ok = (CreateLotOutcome.validationError, s)) ∧
    (∀ s f, (create_parking_lot s f false).2 = s) := by
  refine ⟨?_, create_lot_validation, ?_⟩
  · intro s f price maxSpots hp hm h1 h2 h3 h4 h5
    refine ⟨createdState s (pyStrip f.prime_location_name) price
      (pyStrip f.address) (pyStrip f.pin_code) maxSpots, ?_, rfl, rfl, ?_⟩
    · simp only [create_parking_lot, hp, hm]
      have hc1 : ¬ (pyStrip f.prime_location_name = "" ∨
          pyStrip f.address = "" ∨ pyStrip f.pin_code = "") := by
        push_neg
        exact ⟨h1, h2, h3⟩
      have hc2 : ¬ (price ≤ 0 ∨ maxSpots ≤ 0) := by
        push_neg
        exact ⟨not_le.mp (fun hh => absurd h4 (not_lt.mpr hh)),
          not_le.mp (fun hh => absurd h5 (not_lt.mpr hh))⟩
      rw [if_neg hc1, if_neg hc2]
      rfl
    · refine ⟨mkSpots (pyStrip f.prime_location_name) s.nextLotId
        s.nextSpotId maxSpots.toNat, rfl, by simp [mkSpots], ?_⟩
      intro i hi
      simp only [mkSpots, List.get_eq_getElem, List.getElem_map,
        List.getElem_range]
      exact ⟨rfl, rfl, rfl, rfl⟩
  · intro s f
    cases hp : f.price with
    | none =>
      cases hm : f.maximum_number_of_spots <;>
        simp only [create_parking_lot, hp, hm]
    | some p =>
      cases hm : f.maximum_number_of_spots with
      | none => simp only [create_parking_lot, hp, hm]
      | some m =>
        simp only [create_parking_lot, hp, hm]
        split_ifs with hA hB hC
        · rfl
        · rfl
        · exact hC.elim
        · rfl

/-- C6 witness: creating the "Mall" lot from the fresh store provisions
lot 1 with two Available spots labelled from "MAL". -/
theorem C6_create_lot_provisioning_witness :
    ∃ s', create_parking_lot initialState mallForm true =
        (CreateLotOutcome.created initialState.nextLotId, s') ∧
      s'.lots = initialState.lots ++ [createdLotRow initialState mallForm 10 2] ∧
      s'.reservations = initialState.reservations ∧
      ∃ ns, s'.spots = initialState.spots ++ ns ∧ ns.length = (2 : ℤ).toNat ∧
        ∀ i (hi : i < ns.length),
          (ns.get ⟨i, hi⟩).lot_id = initialState.nextLotId ∧
          (ns.get ⟨i, hi⟩).ordinal = i + 1 ∧
          (ns.get ⟨i, hi⟩).status = SpotStatus.A ∧
          (ns.get ⟨i, hi⟩).spot_number =
            pyUpper ((pyStrip mallForm.prime_location_name).take 3) ++ "-" ++
              pad3 (i + 1) :=
  C6_create_lot_provisioning.1 initialState mallForm 10 2 rfl rfl
    (by decide) (by decide) (by decide) (by decide) (by decide)

/-- C7: deleting a lot with at least one Occupied spot fails with a
Conflict outcome carrying the occupied count and changes nothing; with no
Occupied spot the lot row and exactly its spot rows disappear together,
reservations untouched. -/
theorem C7_delete_lot_requires_vacancy :
    ∀ s lotId lot, findLot s lotId = some lot →
      (0 < occupiedCount s lotId →
        delete_parking_lot s lotId =
          (DeleteLotOutcome.conflict (occupiedCount s lotId), s)) ∧
      (occupiedCount s lotId = 0 →
        delete_parking_lot s lotId =
          (DeleteLotOutcome.deleted, deletedState s lotId) ∧
        (deletedState s lotId).reservations = s.reservations ∧
        (∀ L, L ∈ (deletedState s lotId).lots ↔ L ∈ s.lots ∧ ¬ L.id = lotId) ∧
        (∀ sp, sp ∈ (deletedState s lotId).spots ↔
          sp ∈ s.spots ∧ ¬ sp.lot_id = lotId)) := by
  intro s lotId lot hlot
  constructor
  · intro hocc
    unfold delete_parking_lot
    rw [hlot]
    show (if occupiedCount s lotId > 0
      then (DeleteLotOutcome.conflict (occupiedCount s lotId), s)
      else (DeleteLotOutcome.deleted, deletedState s lotId)) = _
    rw [if_pos hocc]
  · intro hocc
    refine ⟨?_, rfl, ?_, ?_⟩
    · unfold delete_parking_lot
      rw [hlot]
      show (if occupiedCount s lotId > 0
        then (DeleteLotOutcome.conflict (occupiedCount s lotId), s)
        else (DeleteLotOutcome.deleted, deletedState s lotId)) = _
      rw [if_neg (by omega)]
    · intro L
      simp [deletedState, List.mem_filter]
    · intro sp
      simp [deletedState, List.mem_filter]

/-- C7 witness: with user 7 parked, deleting the "Mall" lot yields the
Conflict outcome citing exactly one occupied spot, store unchanged. -/
theorem C7_delete_lot_requires_vacancy_witness :
    delete_parking_lot bookedMall 1 =
      (DeleteLotOutcome.conflict (occupiedCount bookedMall 1), bookedMall) ∧
    occupiedCount bookedMall 1 = 1 :=
  ⟨(C7_delete_lot_requires_vacancy bookedMall 1 mallLot (by decide)).1
    (by decide), by decide⟩

/-- C8: from any reachable store, immediately after a successful release
the same user's next release fails with NoActiveReservation and returns
the store unchanged. -/
theorem C8_second_release_no_op :
    ∀ s uid now resId c s', Reachable s →
      release_spot s uid now = (ReleaseOutcome.released resId c, s') →
      ∀ now', release_spot s' uid now' =
        (ReleaseOutcome.noActiveReservation, s') := by
  intro s uid now resId c s' hs hrel now'
  have inv := reachable_inv hs
  rcases release_spot_released hrel with ⟨r, hres, hrid, hc, hs'⟩
  subst hs'
  have hrm : r ∈ s.reservations := List.mem_of_find?_eq_some hres
  have hpred := List.find?_some hres
  rcases of_decide_eq_true hpred with ⟨huid, hopen⟩
  have hcnt := userOpenCount_released s r now inv hrm hopen uid
  rw [if_pos huid] at hcnt
  have hle := inv.user_open_le uid
  have hpos : 0 < userOpenCount s uid := by
    unfold userOpenCount
    exact List.countP_pos_iff.mpr ⟨r, hrm, by simp [huid, hopen]⟩
  cases hres2 : userOpenRes (releasedState s r now) uid with
  | some q =>
    have hqm := List.mem_of_find?_eq_some hres2
    have hq := List.find?_some hres2
    have hpos2 : 0 < userOpenCount (releasedState s r now) uid := by
      unfold userOpenCount
      exact List.countP_pos_iff.mpr ⟨q, hqm, hq⟩
    omega
  | none =>
    unfold release_spot
    rw [hres2]

/-- C8 witness: after the 2.5-hour release, a second release by user 7 is
refused with no state change. -/
theorem C8_second_release_no_op_witness :
    release_spot releasedMall 7 99999 =
      (ReleaseOutcome.noActiveReservation, releasedMall) :=
  C8_second_release_no_op bookedMall 7 12600 1
    (round2 ((12600 - 3600) / 3600 * 10)) releasedMall bookedMall_reachable
    rfl 99999

/-- C9: an accepted lot edit rewrites only the lot table and there only
the four descriptive/pricing fields: spot rows, reservation rows (hence
every captured `parking_cost_per_unit_time`), the id counters, and every
lot's id and `maximum_number_of_spots` are unchanged, and lots other than
the target are untouched. -/
theorem C9_edit_lot_frame :
    ∀ s lotId f s', edit_parking_lot s lotId f = some s' →
      s'.spots = s.spots ∧ s'.reservations = s.reservations ∧
      s'.nextLotId = s.nextLotId ∧ s'.nextSpotId = s.nextSpotId ∧
      s'.nextResId = s.nextResId ∧
      s'.lots.map (fun L => L.id) = s.lots.map (fun L => L.id) ∧
      s'.lots.map (fun L => L.maximum_number_of_spots) =
        s.lots.map (fun L => L.maximum_number_of_spots) ∧
      (∀ L ∈ s.lots, ¬ L.id = lotId → L ∈ s'.lots) := by
  intro s lotId f s' he
  unfold edit_parking_lot at he
  cases hfind : findLot s lotId with
  | none => rw [hfind] at he; cases he
  | some lot =>
    rw [hfind] at he
    injection he with he'
    subst he'
    unfold editedState
    refine ⟨rfl, rfl, rfl, rfl, rfl, ?_, ?_, ?_⟩
    · rw [List.map_map]
      apply List.map_congr_left
      intro L _
      simp only [Function.comp]
      split <;> rfl
    · rw [List.map_map]
      apply List.map_congr_left
      intro L _
      simp only [Function.comp]
      split <;> rfl
    · intro L hL hne
      exact List.mem_map.mpr ⟨L, hL, if_neg hne⟩

/-- C9 witness: the unvalidated edit of the "Mall" lot leaves spots,
reservations, counters, lot ids and capacities untouched. -/
theorem C9_edit_lot_frame_witness :
    editedMall.spots = mallState.spots ∧
    editedMall.reservations = mallState.reservations ∧
    editedMall.nextLotId = mallState.nextLotId ∧
    editedMall.nextSpotId = mallState.nextSpotId ∧
    editedMall.nextResId = mallState.nextResId ∧
    editedMall.lots.map (fun L => L.id) = mallState.lots.map (fun L => L.id) ∧
    editedMall.lots.map (fun L => L.maximum_number_of_spots) =
      mallState.lots.map (fun L => L.maximum_number_of_spots) ∧
    (∀ L ∈ mallState.lots, ¬ L.id = 1 → L ∈ editedMall.lots) :=
  C9_edit_lot_frame mallState 1 blankEditForm editedMall (by decide)

/-- C10: EditLot validates nothing — on an existing lot every form is
accepted, the stored name/address/postal code become the submitted
(stripped) strings even when blank and the price the submitted number
even when zero or negative, a missing price becoming 0 — whereas
CreateLot rejects a blank name and a non-positive price. -/
theorem C10_edit_lot_no_validation :
    (∀ s lotId f L, L ∈ s.lots → L.id = lotId →
      ∃ s', edit_parking_lot s lotId f = some s' ∧
        ∀ L' ∈ s'.lots, L'.id = lotId →
          L'.prime_location_name = pyStrip f.prime_location_name ∧
          L'.price = f.price.getD 0 ∧
          L'.address = pyStrip f.address ∧
          L'.pin_code = pyStrip f.pin_code) ∧
    (∀ s f ok, pyStrip f.prime_location_name = "" →
      create_parking_lot s f ok = (CreateLotOutcome.validationError, s)) ∧
    (∀ s f ok p, f.price = some p → p ≤ 0 →
      create_parking_lot s f ok = (CreateLotOutcome.validationError, s)) := by
  refine ⟨?_, ?_, ?_⟩
  · intro s lotId f L hL hid
    cases hfind : findLot s lotId with
    | none =>
      unfold findLot at hfind
      have hno := List.find?_eq_none.mp hfind L hL
      exact absurd (by simp [hid]) hno
    | some lot =>
      refine ⟨editedState s lotId f, ?_, ?_⟩
      · unfold edit_parking_lot
        rw [hfind]
      · intro L' hL' hid'
        unfold editedState at hL'
        rcases List.mem_map.mp hL' with ⟨y, hy, rfl⟩
        by_cases hyid : y.id = lotId
        · rw [if_pos hyid]
          exact ⟨rfl, rfl, rfl, rfl⟩
        · rw [if_neg hyid] at hid' ⊢
          exact absurd hid' hyid
  · intro s f ok h
    exact create_lot_validation s f ok (Or.inl h)
  · intro s f ok p hp hple
    exact create_lot_validation s f ok
      (Or.inr (Or.inr (Or.inr (Or.inr (Or.inr (Or.inl ⟨p, hp, hple⟩))))))

/-- C10 witness: the blank-name, negative-price edit form is accepted on
the "Mall" lot and its values land unmodified, while the same blank name
is rejected by CreateLot. -/
theorem C10_edit_lot_no_validation_witness :
    (∃ s', edit_parking_lot mallState 1 blankEditForm = some s' ∧
      ∀ L' ∈ s'.lots, L'.id = 1 →
        L'.prime_location_name = pyStrip blankEditForm.prime_location_name ∧
        L'.price = blankEditForm.price.getD 0 ∧
        L'.address = pyStrip blankEditForm.address ∧
        L'.pin_code = pyStrip blankEditForm.pin_code) ∧
    create_parking_lot mallState
      { prime_location_name := " ", price := some 10, address := "a",
        pin_code := "b", maximum_number_of_spots := some 1 } true =
      (CreateLotOutcome.validationError, mallState) :=
  ⟨C10_edit_lot_no_validation.1 mallState 1 blankEditForm mallLot (by decide)
    (by decide),
   C10_edit_lot_no_validation.2.1 mallState
    { prime_location_name := " ", price := some 10, address := "a",
      pin_code := "b", maximum_number_of_spots := some 1 } true (by decide)⟩
